import Mathlib

/-!
Verification of the typed-value core of the Leo compiler front end
(`compiler/src/constraints/value.rs`): the `ConstrainedValue` tagged value
model, the recursive type-compatibility checker `expect_type`, the literal
resolvers `from_type` / `from_other`, the primitive type extraction
`to_type`, and the `Display` rendering.

Embedding conventions:
* Rust `Result<T, ValueError>` becomes `Except ValueError T`.
* A Rust panic (`unimplemented!`, out-of-bounds indexing such as
  `dimensions[0]` on an empty vector, `unwrap` on `None`) is modelled by
  returning `none` in an `Option`-valued result; `some r` means the Rust
  code returns normally with `r`.
* Collaborator types that live outside the given source file
  (`Type`, `Integer`, `Identifier`, the field/group capability contracts,
  `ValueError`) are modelled from the spec; each such definition carries a
  doc comment saying so.
* Error payloads: the Rust errors carry strings produced by `format!`;
  here each error variant carries the structured data that the source
  interpolates into that string (e.g. the offending array and the expected
  length for `ValueError::ArrayLength`).
-/

namespace Leo

/-- Modelled from the spec: source identifiers (record/function names) are
equality-comparable names; the source's `Identifier` type (defined outside
the given file) compares by name, so it is embedded as `String`. -/
abbrev Identifier := String

/-- The fixed integer bit-widths of the language (source `IntegerType`,
defined outside the given file; the spec lists widths 8/16/32/64/128). -/
inductive IntegerType where
  | U8
  | U16
  | U32
  | U64
  | U128
deriving DecidableEq, Repr

/-- Modelled from the spec: a sized unsigned integer constant. The source
`Integer` (outside the given file) wraps a `UIntN` gadget constant per
width; the numeric payload is embedded as `Nat`. -/
inductive Integer where
  | U8 (v : Nat)
  | U16 (v : Nat)
  | U32 (v : Nat)
  | U64 (v : Nat)
  | U128 (v : Nat)
deriving DecidableEq, Repr

/-- Modelled from the spec: `Integer::get_type`, recovering the width tag
of a sized integer. -/
def Integer.get_type : Integer → IntegerType
  | .U8 _ => .U8
  | .U16 _ => .U16
  | .U32 _ => .U32
  | .U64 _ => .U64
  | .U128 _ => .U128

/-- The numeric payload of a sized integer. -/
def Integer.val : Integer → Nat
  | .U8 v | .U16 v | .U32 v | .U64 v | .U128 v => v

/-- Modelled from the spec: the field capability contract. Field elements
are abstracted as naturals; parsing is `String.toNat?` and the additive
identity is `0`. Only the `Constant` form of the source `FieldElement<F>`
is reachable from the operations verified here. -/
inductive FieldElement where
  | Constant (v : Nat)
deriving DecidableEq, Repr

/-- The numeric value of a decimal digit character, or `none` for any
character outside `'0'..'9'`. -/
def digitVal (c : Char) : Option Nat :=
  if '0' ≤ c ∧ c ≤ '9' then some (c.toNat - 48) else none

/-- Accumulating decimal parse over a character list; fails on the first
non-digit. -/
def parseDecAux : List Char → Nat → Option Nat
  | [], acc => some acc
  | c :: cs, acc =>
    match digitVal c with
    | some d => parseDecAux cs (10 * acc + d)
    | none => none

/-- Decimal parse of a non-empty all-digit character list. -/
def parseDec : List Char → Option Nat
  | [] => none
  | c :: cs => parseDecAux (c :: cs) 0

/-- Modelled from the spec: the field's parse-from-text capability
(`F::from_str`), abstracted as decimal natural parsing. -/
def fieldFromStr (s : String) : Option Nat :=
  parseDec s.data

/-- Modelled from the spec: the field's additive identity (`F::default()`
of the capability contract). -/
def fieldZero : Nat := 0

/-- Modelled from the spec: the group capability contract. A group element
is represented by the scalar multiple of the canonical generator that it
equals, so the generator itself is `⟨1⟩` and scalar multiplication
multiplies the exponent. -/
structure GroupElement where
  mult : Nat
deriving DecidableEq, Repr

/-- Modelled from the spec: `G::default()`, the canonical generator point
of the group capability contract. -/
def GroupElement.genDefault : GroupElement := ⟨1⟩

/-- Modelled from the spec: scalar multiplication `g.mul(&scalar)` of the
group capability contract. -/
def GroupElement.mul (g : GroupElement) (s : Nat) : GroupElement :=
  ⟨g.mult * s⟩

/-- Modelled from the spec: parsing a scalar of the group's scalar field
(`G::ScalarField::from_str`), abstracted as decimal natural parsing. -/
def scalarFromStr (s : String) : Option Nat :=
  parseDec s.data

/-- The boolean gadget (source `Boolean` from the gadget library). Only the
`Constant` form is reachable from the operations verified here; its
`get_value` is always defined. -/
inductive GBoolean where
  | Constant (b : Bool)
deriving DecidableEq, Repr

/-- `Boolean::get_value` of the gadget: for a constant it is `some`. -/
def GBoolean.get_value : GBoolean → Option Bool
  | .Constant b => some b

/-- Modelled from the spec: a record-type declaration (name, field types,
methods). Compile-time-only; none of the verified operations inspect its
payload beyond existence, so only the name is kept. -/
structure Circuit where
  name : Identifier
deriving DecidableEq, Repr

/-- Modelled from the spec: a declared function definition. The rendering
prints its `function_name`; nothing else is inspected here. -/
structure Function where
  function_name : Identifier
deriving DecidableEq, Repr

/-- The declared-type model (source `Type<F, G>`, defined outside the given
file; the spec lists exactly these forms). `Ty` stands for the source name
`Type`, which Lean reserves. -/
inductive Ty where
  | IntegerType (it : IntegerType)
  | FieldElement
  | GroupElement
  | Boolean
  | Array (elem : Ty) (dimensions : List Nat)
  | Circuit (name : Identifier)
  | SelfType
deriving DecidableEq, Repr

/-- The value model `ConstrainedValue<F, G>` of the source, variant for
variant. A circuit member `ConstrainedCircuitMember(identifier, value)` is
embedded as a pair. -/
inductive ConstrainedValue where
  | Integer (i : Integer)
  | FieldElement (f : Leo.FieldElement)
  | GroupElement (g : Leo.GroupElement)
  | Boolean (b : GBoolean)
  | Array (arr : List ConstrainedValue)
  | CircuitDefinition (c : Leo.Circuit)
  | CircuitExpression (name : Identifier) (members : List (Identifier × ConstrainedValue))
  | Function (circuit : Option Identifier) (f : Leo.Function)
  | Return (values : List ConstrainedValue)
  | Mutable (v : ConstrainedValue)
  | Static (v : ConstrainedValue)
  | Unresolved (text : String)

/-- Modelled from the spec: the error taxonomy (`ValueError`, defined
outside the given file). Each variant carries the structured data the
source interpolates into its message. -/
inductive ValueError where
  | ArrayLength (actual : List ConstrainedValue) (expected : Nat)
  | CircuitName (expected : String) (actual : String)
  | TypeError (expected : Ty) (got : ConstrainedValue)
  | IntegerTypeMismatch (expected : IntegerType) (actual : IntegerType)
  | LiteralParseFailure

/-- Modelled from the spec: the `Display` of a sized integer prints the
decimal text of its value (the source `Integer` display lives outside the
given file; spec §8 requires rendering to reproduce the decimal text). -/
def Integer.display (i : Integer) : String :=
  toString i.val

/-- Modelled from the spec: the display form of the field capability
contract — decimal text of the abstracted element. -/
def FieldElement.display : FieldElement → String
  | .Constant v => toString v

/-- Modelled from the spec: the display form of the group capability
contract — decimal text of the abstracted generator multiple. -/
def GroupElement.display (g : GroupElement) : String :=
  toString g.mult

/-- The `for (i, e) in ... { write!(e); if i < len - 1 { write!(", ") } }`
loop shared by the Array, CircuitExpression and Return display arms:
joins already-rendered pieces with `", "`. -/
def writeSeq : List String → String
  | [] => ""
  | [s] => s
  | s :: rest => s ++ ", " ++ writeSeq rest

mutual

/-- `fmt::Display for ConstrainedValue`, arm by arm. `none` models the
`unimplemented!` panic on `CircuitDefinition` (and its propagation out of
a containing composite); `some s` is the rendered text. The boolean arm's
`get_value().unwrap()` cannot panic on the constants representable here. -/
def ConstrainedValue.display : ConstrainedValue → Option String
  | .Integer i => some i.display
  | .FieldElement f => some f.display
  | .GroupElement g => some g.display
  | .Boolean b =>
    match b.get_value with
    | some v => some (toString v)
    | none => none
  | .Array arr =>
    (ConstrainedValue.display_list arr).map (fun pieces => "[" ++ writeSeq pieces ++ "]")
  | .CircuitExpression identifier members =>
    (ConstrainedValue.display_members members).map
      (fun pieces => identifier ++ " \x7b" ++ writeSeq pieces ++ "\x7d")
  | .Return values =>
    (ConstrainedValue.display_list values).map
      (fun pieces => "Program output: [" ++ writeSeq pieces ++ "]")
  | .CircuitDefinition _ => none
  | .Function _ f => some (f.function_name ++ "();")
  | .Mutable v => (ConstrainedValue.display v).map (fun s => "mut " ++ s)
  | .Static v => (ConstrainedValue.display v).map (fun s => "static " ++ s)
  | .Unresolved text => some ("unresolved " ++ text)

/-- Renders each element of a sequence, propagating a panic. -/
def ConstrainedValue.display_list : List ConstrainedValue → Option (List String)
  | [] => some []
  | v :: rest =>
    match ConstrainedValue.display v, ConstrainedValue.display_list rest with
    | some s, some l => some (s :: l)
    | _, _ => none

/-- Renders each circuit member as `name: value`, propagating a panic. -/
def ConstrainedValue.display_members :
    List (Identifier × ConstrainedValue) → Option (List String)
  | [] => some []
  | (name, v) :: rest =>
    match ConstrainedValue.display v, ConstrainedValue.display_members rest with
    | some s, some l => some ((name ++ ": " ++ s) :: l)
    | _, _ => none

end

/-- Modelled from the spec: `Integer::expect_type` (defined outside the
given file) — succeeds iff the integer's width matches the declared width;
otherwise a width-mismatch failure. -/
def Integer.expect_type (i : Integer) (t : IntegerType) : Except ValueError Unit :=
  if i.get_type = t then .ok () else .error (.IntegerTypeMismatch t i.get_type)

/-- Modelled from the spec: `Type::next_dimension` (defined outside the
given file) — the element type obtained by peeling the first entry off the
dimension list; with a single remaining dimension the element type is the
bare element type rather than a nested array type. -/
def Ty.next_dimension (t : Ty) (dimensions : List Nat) : Ty :=
  if dimensions.length > 1 then .Array t dimensions.tail else t

mutual

/-- `ConstrainedValue::expect_type`: decides whether a value is compatible
with a declared type. `none` models the Rust panics reachable here: the
`dimensions[0]` indexing on an empty dimension list, and the
`unimplemented!` reached through the eager `format!` of an error message —
the `ArrayLength` arm Debug-formats the offending array and the `TypeError`
arm Display-formats the offending value before the error is returned, and
both renderings panic on a contained `CircuitDefinition`. `some (.ok ())`
is `Ok(())`; `some (.error e)` is `Err(e)`. Cases follow the source match
arm by arm. -/
def ConstrainedValue.expect_type : ConstrainedValue → Ty → Option (Except ValueError Unit)
  | .Integer i, .IntegerType t => some (i.expect_type t)
  | .FieldElement _, .FieldElement => some (.ok ())
  | .GroupElement _, .GroupElement => some (.ok ())
  | .Boolean _, .Boolean => some (.ok ())
  | .Array arr, .Array t dims =>
    match dims with
    | [] => none
    | d :: _ =>
      if arr.length ≠ d then
        match ConstrainedValue.display_list arr with
        | some _ => some (.error (.ArrayLength arr d))
        | none => none
      else
        ConstrainedValue.expect_type_list arr (t.next_dimension dims)
  | .CircuitExpression actual_name _, .Circuit expected_name =>
    if expected_name ≠ actual_name then
      some (.error (.CircuitName expected_name actual_name))
    else
      some (.ok ())
  | .CircuitExpression actual_name _, .SelfType =>
    if "Self" = actual_name then
      some (.error (.CircuitName "Self" actual_name))
    else
      some (.ok ())
  | .Return values, t => ConstrainedValue.expect_type_list values t
  | .Mutable v, t => ConstrainedValue.expect_type v t
  | .Static v, t => ConstrainedValue.expect_type v t
  | v, t =>
    match ConstrainedValue.display v with
    | some _ => some (.error (.TypeError t v))
    | none => none

/-- The `for value in arr { value.expect_type(&next_type)?; }` loop of the
source: checks each element in order, propagating the first error and any
panic. -/
def ConstrainedValue.expect_type_list : List ConstrainedValue → Ty → Option (Except ValueError Unit)
  | [], _ => some (.ok ())
  | v :: rest, t =>
    match ConstrainedValue.expect_type v t with
    | none => none
    | some (.error e) => some (.error e)
    | some (.ok ()) => ConstrainedValue.expect_type_list rest t

end

/-- Modelled from the Rust standard library contract used by the source:
`str::parse::<uN>()` accepts an optional leading `+` followed by decimal
digits and rejects values outside the width's range. Returns the parsed
value below `2 ^ width`, or `none` on failure. -/
def parseUInt (width : Nat) (s : String) : Option Nat :=
  let core :=
    match s.data with
    | '+' :: rest => rest
    | chars => chars
  match parseDec core with
  | some n => if n < 2 ^ width then some n else none
  | none => none

/-- Modelled from the Rust standard library contract used by the source:
`str::parse::<bool>()` accepts exactly `"true"` and `"false"`. -/
def parseRustBool (s : String) : Option Bool :=
  if s = "true" then some true
  else if s = "false" then some false
  else none

/-- `ConstrainedValue::from_type`: resolve a raw textual literal against a
known declared type. Follows the source arm by arm; integer and boolean
parse failures propagate as errors, field/group parse failures fall back
to the respective zero via `unwrap_or_default`, and any other declared
type defers the literal as `Unresolved`. -/
def ConstrainedValue.from_type (value : String) (t : Ty) : Except ValueError ConstrainedValue :=
  match t with
  | .IntegerType it =>
    match it with
    | .U8 =>
      match parseUInt 8 value with
      | some n => .ok (.Integer (.U8 n))
      | none => .error .LiteralParseFailure
    | .U16 =>
      match parseUInt 16 value with
      | some n => .ok (.Integer (.U16 n))
      | none => .error .LiteralParseFailure
    | .U32 =>
      match parseUInt 32 value with
      | some n => .ok (.Integer (.U32 n))
      | none => .error .LiteralParseFailure
    | .U64 =>
      match parseUInt 64 value with
      | some n => .ok (.Integer (.U64 n))
      | none => .error .LiteralParseFailure
    | .U128 =>
      match parseUInt 128 value with
      | some n => .ok (.Integer (.U128 n))
      | none => .error .LiteralParseFailure
  | .FieldElement =>
    .ok (.FieldElement (.Constant ((fieldFromStr value).getD fieldZero)))
  | .GroupElement =>
    .ok (.GroupElement (GroupElement.genDefault.mul ((scalarFromStr value).getD 0)))
  | .Boolean =>
    match parseRustBool value with
    | some b => .ok (.Boolean (.Constant b))
    | none => .error .LiteralParseFailure
  | _ => .ok (.Unresolved value)

/-- `ConstrainedValue::to_type`: primitive-only type extraction. `none`
models the `unimplemented!` panic on every non-primitive variant. -/
def ConstrainedValue.to_type : ConstrainedValue → Option Ty
  | .Integer i => some (.IntegerType i.get_type)
  | .FieldElement _ => some .FieldElement
  | .GroupElement _ => some .GroupElement
  | .Boolean _ => some .Boolean
  | _ => none

/-- `ConstrainedValue::from_other`: infer the target type from an exemplar
value via `to_type` and delegate to `from_type`. A `to_type` panic (the
exemplar is not primitive) propagates as `none`. -/
def ConstrainedValue.from_other (value : String) (other : ConstrainedValue) :
    Option (Except ValueError ConstrainedValue) :=
  (other.to_type).map (fun t => ConstrainedValue.from_type value t)

/-- The spec's primitivity predicate: the four variants `to_type` is
documented to accept. -/
def ConstrainedValue.isPrimitive : ConstrainedValue → Bool
  | .Integer _ => true
  | .FieldElement _ => true
  | .GroupElement _ => true
  | .Boolean _ => true
  | _ => false


/-- Joining with a leading separator before every piece; the loop shape of
`String.intercalate.go`'s remainder. -/
def joinPre (s : String) : List String → String
  | [] => ""
  | a :: as => s ++ a ++ joinPre s as

/-! ## Helper lemmas -/

theorem expect_type_list_ok_iff (l : List ConstrainedValue) (t : Ty) :
    ConstrainedValue.expect_type_list l t = some (.ok ()) ↔
      ∀ v ∈ l, ConstrainedValue.expect_type v t = some (.ok ()) := by
  induction l with
  | nil => simp [ConstrainedValue.expect_type_list]
  | cons v rest ih =>
    simp only [ConstrainedValue.expect_type_list]
    cases h : ConstrainedValue.expect_type v t with
    | none => simp [h]
    | some r =>
      cases r with
      | error e => simp [h]
      | ok u => cases u; simp [h, ih]

theorem writeSeq_cons_eq (as : List String) :
    ∀ a : String, writeSeq (a :: as) = a ++ joinPre ", " as := by
  induction as with
  | nil => intro a; simp [writeSeq, joinPre]
  | cons b bs ih =>
    intro a
    simp only [writeSeq, joinPre, ih b, String.append_assoc]

theorem intercalate_go_eq (as : List String) :
    ∀ acc : String, String.intercalate.go acc ", " as = acc ++ joinPre ", " as := by
  induction as with
  | nil => intro acc; simp [String.intercalate.go, joinPre]
  | cons a bs ih =>
    intro acc
    simp only [String.intercalate.go, joinPre, ih, String.append_assoc]

theorem writeSeq_eq_intercalate (l : List String) :
    writeSeq l = String.intercalate ", " l := by
  cases l with
  | nil => rfl
  | cons a as =>
    simp only [String.intercalate, writeSeq_cons_eq, intercalate_go_eq]

/-! ## Claims -/

/-- C1 counterexample: a length mismatch does not always return the
`ArrayLength` error — the source eagerly Debug-formats the offending
array into the error message, and that rendering panics on a contained
`CircuitDefinition`, so `[CircuitDefinition]` against `Array(Boolean,[2])`
panics instead of erroring. -/
theorem expect_type_array_counterexample :
    ConstrainedValue.expect_type (.Array [.CircuitDefinition ⟨"Foo"⟩]) (.Array .Boolean [2]) ≠
      some (.error (.ArrayLength [.CircuitDefinition ⟨"Foo"⟩] 2)) ∧
    ConstrainedValue.expect_type (.Array [.CircuitDefinition ⟨"Foo"⟩]) (.Array .Boolean [2]) =
      none :=
  ⟨fun h => (nomatch h), rfl⟩

/-- C1 amended: checking an Array value against an Array declared type
with a non-empty dimension list succeeds iff the value's outer length
equals the first dimension and every element recursively satisfies
`expect_type` against the type with that first dimension peeled off (the
bare element type when only one dimension remains); a length mismatch
returns an `ArrayLength` error carrying the actual array and the expected
length when rendering the actual array does not panic, and panics (the
eager error formatting Debug-renders the array, which is unimplemented
for a contained `CircuitDefinition`) when it does. -/
theorem expect_type_array_spec (arr : List ConstrainedValue) (t : Ty) (d : Nat) (ds : List Nat) :
    (ConstrainedValue.expect_type (.Array arr) (.Array t (d :: ds)) = some (.ok ()) ↔
      arr.length = d ∧
        ∀ v ∈ arr,
          ConstrainedValue.expect_type v
            (match ds with | [] => t | _ :: _ => .Array t ds) = some (.ok ())) ∧
    (arr.length ≠ d → ∀ pieces, ConstrainedValue.display_list arr = some pieces →
      ConstrainedValue.expect_type (.Array arr) (.Array t (d :: ds)) =
        some (.error (.ArrayLength arr d))) ∧
    (arr.length ≠ d → ConstrainedValue.display_list arr = none →
      ConstrainedValue.expect_type (.Array arr) (.Array t (d :: ds)) = none) := by
  have hnext : Ty.next_dimension t (d :: ds) =
      (match ds with | [] => t | _ :: _ => .Array t ds) := by
    cases ds <;> simp [Ty.next_dimension]
  refine ⟨?_, ?_, ?_⟩
  · by_cases h : arr.length = d
    · simp [ConstrainedValue.expect_type, h, hnext, expect_type_list_ok_iff]
    · cases hd : ConstrainedValue.display_list arr with
      | none => simp [ConstrainedValue.expect_type, h, hd]
      | some l => simp [ConstrainedValue.expect_type, h, hd]
  · intro h pieces hd
    simp [ConstrainedValue.expect_type, h, hd]
  · intro h hd
    simp [ConstrainedValue.expect_type, h, hd]

/-- C1 witness: a renderable length-1 array against declared length 2
yields the `ArrayLength` error carrying the array and the expected
length; the mismatch and renderability hypotheses are discharged
concretely. -/
theorem expect_type_array_spec_witness :
    ConstrainedValue.expect_type (.Array [.Boolean (.Constant true)]) (.Array .Boolean [2]) =
      some (.error (.ArrayLength [.Boolean (.Constant true)] 2)) :=
  (expect_type_array_spec [.Boolean (.Constant true)] .Boolean 2 []).2.1 (by decide)
    ["true"] rfl

/-- C2: checking a CircuitExpression against `SelfType` returns a
`CircuitName` error precisely when the expression's type name equals the
literal identifier `"Self"`, and succeeds for every other type name. -/
theorem expect_type_selftype_spec (name : Identifier)
    (members : List (Identifier × ConstrainedValue)) :
    (ConstrainedValue.expect_type (.CircuitExpression name members) .SelfType =
        some (.error (.CircuitName "Self" name)) ↔ name = "Self") ∧
    (name ≠ "Self" →
      ConstrainedValue.expect_type (.CircuitExpression name members) .SelfType =
        some (.ok ())) := by
  by_cases h : name = "Self"
  · subst h
    simp [ConstrainedValue.expect_type]
  · simp [ConstrainedValue.expect_type, h, Ne.symm h]

/-- C2 witness: the name `"Point"` differs from `"Self"`, so the check
succeeds. -/
theorem expect_type_selftype_spec_witness :
    ConstrainedValue.expect_type (.CircuitExpression "Point" []) .SelfType = some (.ok ()) :=
  (expect_type_selftype_spec "Point" []).2 (by decide)

/-- C3: `from_type` at declared type `FieldElement` never errors and falls
back to the field's additive identity on parse failure; at declared type
`GroupElement` it returns the canonical generator scaled by the parsed
scalar (the zero scalar on parse failure). -/
theorem from_type_field_group_spec (s : String) :
    (∃ v, ConstrainedValue.from_type s .FieldElement = .ok v) ∧
    (fieldFromStr s = none →
      ConstrainedValue.from_type s .FieldElement =
        .ok (.FieldElement (.Constant fieldZero))) ∧
    ConstrainedValue.from_type s .GroupElement =
      .ok (.GroupElement (GroupElement.genDefault.mul ((scalarFromStr s).getD 0))) := by
  refine ⟨⟨_, rfl⟩, ?_, rfl⟩
  intro h
  simp [ConstrainedValue.from_type, h]

/-- C3 witness: `"abc"` does not parse as a field element and resolves to
the field's zero. -/
theorem from_type_field_group_spec_witness :
    ConstrainedValue.from_type "abc" .FieldElement =
      .ok (.FieldElement (.Constant fieldZero)) :=
  (from_type_field_group_spec "abc").2.1 rfl

/-- C4: `Mutable` and `Static` wrappers are transparent to `expect_type`,
and a `Return` checks iff every contained value independently checks
against the same declared type. -/
theorem expect_type_wrapper_spec (v : ConstrainedValue) (t : Ty)
    (values : List ConstrainedValue) :
    ConstrainedValue.expect_type (.Mutable v) t = ConstrainedValue.expect_type v t ∧
    ConstrainedValue.expect_type (.Static v) t = ConstrainedValue.expect_type v t ∧
    (ConstrainedValue.expect_type (.Return values) t = some (.ok ()) ↔
      ∀ w ∈ values, ConstrainedValue.expect_type w t = some (.ok ())) := by
  refine ⟨?_, ?_, ?_⟩
  · simp [ConstrainedValue.expect_type]
  · simp [ConstrainedValue.expect_type]
  · simp [ConstrainedValue.expect_type, expect_type_list_ok_iff]

/-- C4 witness: a concrete instance of wrapper transparency. -/
theorem expect_type_wrapper_spec_witness :
    ConstrainedValue.expect_type (.Mutable (.Boolean (.Constant true))) .Boolean =
        ConstrainedValue.expect_type (.Boolean (.Constant true)) .Boolean ∧
    ConstrainedValue.expect_type (.Static (.Boolean (.Constant true))) .Boolean =
        ConstrainedValue.expect_type (.Boolean (.Constant true)) .Boolean ∧
    (ConstrainedValue.expect_type (.Return []) .Boolean = some (.ok ()) ↔
      ∀ w ∈ ([] : List ConstrainedValue),
        ConstrainedValue.expect_type w .Boolean = some (.ok ())) :=
  expect_type_wrapper_spec (.Boolean (.Constant true)) .Boolean []

/-- C5: checking a CircuitExpression named `n` against `Circuit m`
succeeds iff `n = m`, and otherwise fails with a `CircuitName` error
carrying both the expected and the actual name. -/
theorem expect_type_circuit_spec (n m : Identifier)
    (members : List (Identifier × ConstrainedValue)) :
    (ConstrainedValue.expect_type (.CircuitExpression n members) (.Circuit m) =
        some (.ok ()) ↔ n = m) ∧
    (n ≠ m →
      ConstrainedValue.expect_type (.CircuitExpression n members) (.Circuit m) =
        some (.error (.CircuitName m n))) := by
  by_cases h : n = m
  · subst h
    simp [ConstrainedValue.expect_type]
  · simp [ConstrainedValue.expect_type, h, Ne.symm h]

/-- C5 witness: `"Point"` against `Circuit "Line"` fails naming both. -/
theorem expect_type_circuit_spec_witness :
    ConstrainedValue.expect_type (.CircuitExpression "Point" []) (.Circuit "Line") =
      some (.error (.CircuitName "Line" "Point")) :=
  (expect_type_circuit_spec "Point" "Line" []).2 (by decide)

/-- C6: `from_type` at declared type `Boolean` succeeds exactly on
`"true"` and `"false"`, yielding the corresponding constant; any other
text is a propagated literal-parse failure. -/
theorem from_type_boolean_spec (s : String) :
    (ConstrainedValue.from_type s .Boolean = .ok (.Boolean (.Constant true)) ↔ s = "true") ∧
    (ConstrainedValue.from_type s .Boolean = .ok (.Boolean (.Constant false)) ↔ s = "false") ∧
    (s ≠ "true" → s ≠ "false" →
      ConstrainedValue.from_type s .Boolean = .error .LiteralParseFailure) := by
  by_cases h1 : s = "true"
  · subst h1
    refine ⟨?_, ?_, ?_⟩
    · simp [ConstrainedValue.from_type, parseRustBool]
    · simp [ConstrainedValue.from_type, parseRustBool]
    · intro h _
      exact absurd rfl h
  · by_cases h2 : s = "false"
    · subst h2
      refine ⟨?_, ?_, ?_⟩
      · simp [ConstrainedValue.from_type, parseRustBool]
      · simp [ConstrainedValue.from_type, parseRustBool]
      · intro _ h
        exact absurd rfl h
    · refine ⟨?_, ?_, ?_⟩
      · simp [ConstrainedValue.from_type, parseRustBool, h1, h2]
      · simp [ConstrainedValue.from_type, parseRustBool, h1, h2]
      · intro _ _
        simp [ConstrainedValue.from_type, parseRustBool, h1, h2]

/-- C6 witness: `"yes"` fails to resolve as a boolean literal. -/
theorem from_type_boolean_spec_witness :
    ConstrainedValue.from_type "yes" .Boolean = .error .LiteralParseFailure :=
  (from_type_boolean_spec "yes").2.2 (by decide) (by decide)

/-- C7: for a primitive exemplar, `from_other` equals `from_type` at the
exemplar's extracted type; with an `Integer` exemplar of width 32 the
literal `"7"` resolves to the width-32 integer 7. -/
theorem from_other_spec (s : String) (other : ConstrainedValue) (k : Nat)
    (h : other.isPrimitive = true) :
    (∃ t, other.to_type = some t ∧
      ConstrainedValue.from_other s other = some (ConstrainedValue.from_type s t)) ∧
    ConstrainedValue.from_other "7" (.Integer (.U32 k)) =
      some (.ok (.Integer (.U32 7))) := by
  refine ⟨?_, rfl⟩
  cases other
  case Integer i => exact ⟨_, rfl, rfl⟩
  case FieldElement f => exact ⟨_, rfl, rfl⟩
  case GroupElement g => exact ⟨_, rfl, rfl⟩
  case Boolean b => exact ⟨_, rfl, rfl⟩
  all_goals simp [ConstrainedValue.isPrimitive] at h

/-- C7 witness: instantiated at the width-32 exemplar `0` and text `"7"`. -/
theorem from_other_spec_witness :
    (∃ t, (ConstrainedValue.Integer (.U32 0)).to_type = some t ∧
      ConstrainedValue.from_other "7" (.Integer (.U32 0)) =
        some (ConstrainedValue.from_type "7" t)) ∧
    ConstrainedValue.from_other "7" (.Integer (.U32 0)) =
      some (.ok (.Integer (.U32 7))) :=
  from_other_spec "7" (.Integer (.U32 0)) 0 (by decide)

/-- C8: `to_type` recovers the primitive declared type of each primitive
variant, aborts (modelled as `none`) on every non-primitive variant, and
under the primitivity precondition the abort branch is unreachable. -/
theorem to_type_spec :
    (∀ i : Integer, (ConstrainedValue.Integer i).to_type = some (.IntegerType i.get_type)) ∧
    (∀ f : FieldElement, (ConstrainedValue.FieldElement f).to_type = some .FieldElement) ∧
    (∀ g : GroupElement, (ConstrainedValue.GroupElement g).to_type = some .GroupElement) ∧
    (∀ b : GBoolean, (ConstrainedValue.Boolean b).to_type = some .Boolean) ∧
    (∀ v : ConstrainedValue, v.isPrimitive = false → v.to_type = none) ∧
    (∀ v : ConstrainedValue, v.isPrimitive = true → (v.to_type).isSome = true) := by
  refine ⟨fun i => rfl, fun f => rfl, fun g => rfl, fun b => rfl, ?_, ?_⟩
  · intro v h
    cases v <;> first | rfl | simp [ConstrainedValue.isPrimitive] at h
  · intro v h
    cases v <;> first | rfl | simp [ConstrainedValue.isPrimitive] at h

/-- C8 witness: the abort branch fires on a composite and is unreachable
on a primitive. -/
theorem to_type_spec_witness :
    (ConstrainedValue.Array []).to_type = none ∧
    ((ConstrainedValue.Integer (.U32 5)).to_type).isSome = true :=
  ⟨to_type_spec.2.2.2.2.1 _ (by decide), to_type_spec.2.2.2.2.2 _ (by decide)⟩

/-- C9 counterexample: a Return does not render as the bare bracketed
list; it carries the `"Program output: "` prefix. -/
theorem display_return_counterexample :
    ConstrainedValue.display (.Return [.Integer (.U32 7)]) = some "Program output: [7]" ∧
    ConstrainedValue.display (.Return [.Integer (.U32 7)]) ≠ some "[7]" := by
  exact ⟨rfl, by decide⟩

/-- C9 amended: a Return renders as the text `"Program output: "` followed
by the bracketed, comma-separated list of its contained values'
renderings — equivalently, the prefix followed by the rendering of the
corresponding Array value. -/
theorem display_return_amended (values : List ConstrainedValue) :
    ConstrainedValue.display (.Return values) =
      (ConstrainedValue.display (.Array values)).map (fun s => "Program output: " ++ s) ∧
    ConstrainedValue.display (.Return values) =
      (ConstrainedValue.display_list values).map
        (fun pieces => "Program output: [" ++ String.intercalate ", " pieces ++ "]") := by
  constructor
  · cases h : ConstrainedValue.display_list values with
    | none => simp [ConstrainedValue.display, h]
    | some l =>
      simp [ConstrainedValue.display, h, ← String.append_assoc]
  · cases h : ConstrainedValue.display_list values with
    | none => simp [ConstrainedValue.display, h]
    | some l =>
      simp [ConstrainedValue.display, h, writeSeq_eq_intercalate]

/-- C9 amended witness: a concrete two-element Return rendering. -/
theorem display_return_amended_witness :
    ConstrainedValue.display
        (.Return [.Integer (.U32 7), .Boolean (.Constant true)]) =
      (ConstrainedValue.display (.Array [.Integer (.U32 7), .Boolean (.Constant true)])).map
        (fun s => "Program output: " ++ s) ∧
    ConstrainedValue.display
        (.Return [.Integer (.U32 7), .Boolean (.Constant true)]) =
      (ConstrainedValue.display_list [.Integer (.U32 7), .Boolean (.Constant true)]).map
        (fun pieces => "Program output: [" ++ String.intercalate ", " pieces ++ "]") :=
  display_return_amended [.Integer (.U32 7), .Boolean (.Constant true)]

/-- C10: checking any Array value against an Array declared type whose
dimension list is empty hits the unguarded `dimensions[0]` indexing and
panics (modelled as `none`), so totality of that branch requires a
non-empty dimension list. -/
theorem expect_type_empty_dims_spec (arr : List ConstrainedValue) (t : Ty) :
    ConstrainedValue.expect_type (.Array arr) (.Array t []) = none := by
  simp [ConstrainedValue.expect_type]

/-- C10 witness: the panic fires already on the empty array. -/
theorem expect_type_empty_dims_spec_witness :
    ConstrainedValue.expect_type (.Array []) (.Array .Boolean []) = none :=
  expect_type_empty_dims_spec [] .Boolean

end Leo
